import Mathlib

/-!
Verification of the personal-activity-index repository: a shallow embedding
of the item model, the SQLite storage operations, the Bluesky fetcher's pure
helpers and sync loop, the multi-source sync orchestration, and the
limit-validation paths, together with theorems settling the spec's claims.

Strings that flow through the program are embedded as Lean `String`s
(sequences of Unicode scalar values, exactly as Rust `String`s); where byte
positions matter (Rust `text.len()` and `&text[..97]`) the byte structure is
recovered from the characters' UTF-8 sizes.
-/

namespace Pai

/-- `SourceKind` from `core/src/lib.rs`: the four supported source types. -/
inductive SourceKind where
  | substack
  | bluesky
  | leaflet
  | bearBlog
deriving DecidableEq, Repr

/-- The `Display` impl for `SourceKind` (`core/src/lib.rs`): lowercase names. -/
def SourceKind.toText : SourceKind → String
  | .substack => "substack"
  | .bluesky => "bluesky"
  | .leaflet => "leaflet"
  | .bearBlog => "bearblog"

/-- `PaiError` from `core/src/lib.rs`, each variant carrying its message. -/
inductive PaiError where
  | unknownSourceKind (msg : String)
  | invalidArgument (msg : String)
  | storage (msg : String)
  | fetch (msg : String)
  | parse (msg : String)
  | config (msg : String)
  | io (msg : String)
deriving DecidableEq, Repr

/-- `Item` from `core/src/lib.rs`: one canonical content item. -/
structure Item where
  id : String
  source_kind : SourceKind
  source_id : String
  author : Option String
  title : Option String
  summary : Option String
  url : String
  content_html : Option String
  published_at : String
  created_at : String
deriving DecidableEq, Repr

/-- `ListFilter` from `core/src/lib.rs`: optional constraints for listing. -/
structure ListFilter where
  source_kind : Option SourceKind := none
  source_id : Option String := none
  limit : Option Nat := none
  since : Option String := none
  query : Option String := none
deriving DecidableEq, Repr

/-! ### UTF-8 byte structure of Rust strings -/

/-- UTF-8 encoded size in bytes of one character, as Rust `char::len_utf8`. -/
def charUtf8Size (c : Char) : Nat :=
  if c.toNat ≤ 0x7F then 1
  else if c.toNat ≤ 0x7FF then 2
  else if c.toNat ≤ 0xFFFF then 3
  else 4

/-- Rust `str::len`: the UTF-8 byte length of a character sequence. -/
def utf8Len (l : List Char) : Nat := (l.map charUtf8Size).sum

/-- Rust byte slicing `&text[..n]` on a UTF-8 string: `some` prefix when byte
offset `n` lands exactly on a character boundary, `none` when the slice
panics (offset inside a multi-byte character or past the end). -/
def byteTake (n : Nat) : List Char → Option (List Char)
  | [] => if n = 0 then some [] else none
  | c :: cs =>
    if n = 0 then some []
    else if charUtf8Size c ≤ n then
      (byteTake (n - charUtf8Size c) cs).map (c :: ·)
    else none

/-! ### Bluesky fetcher pure helpers (`core/src/fetchers/bluesky.rs`) -/

/-- The ellipsis appended by `create_title` on truncation. -/
def ellipsis : List Char := ['.', '.', '.']

/-- `BlueskyFetcher::create_title`: returns the text when its byte length is
at most 100, otherwise the first 97 bytes followed by `"..."`.  The result is
`none` exactly when the Rust code panics: the slice `&text[..97]` requires
byte offset 97 to be a character boundary. -/
def create_title (text : List Char) : Option (List Char) :=
  if utf8Len text ≤ 100 then some text
  else (byteTake 97 text).map (· ++ ellipsis)

/-- Rust `str::split(sep)`: the fields between occurrences of `sep`,
empty fields included (`""` splits to `[""]`). -/
def splitOnChar (sep : Char) : List Char → List (List Char)
  | [] => [[]]
  | c :: cs =>
    let r := splitOnChar sep cs
    if c = sep then [] :: r
    else
      match r with
      | [] => [[c]]
      | h :: t => (c :: h) :: t

deriving instance DecidableEq for Except

/-- The `'/'`-split fields of an AT URI (`let parts: Vec<&str> = uri.split('/')`). -/
def atUriParts (uri : String) : List (List Char) := splitOnChar '/' uri.toList

/-- The accepting condition of `at_uri_to_url`:
`parts.len() >= 4 && parts[0] == "at:"`. -/
def atUriGuard (uri : String) : Bool :=
  decide (4 ≤ (atUriParts uri).length) && ((atUriParts uri).headD [] == "at:".toList)

/-- `BlueskyFetcher::at_uri_to_url`: splits the URI on `'/'`; when there are
at least 4 fields and the first is `"at:"`, substitutes the last field into
the canonical URL template, otherwise a `Parse` error. -/
def at_uri_to_url (uri handle : String) : Except PaiError String :=
  if atUriGuard uri then
    .ok ("https://bsky.app/profile/" ++ handle ++ "/post/" ++
      ((atUriParts uri).getLastD []).asString)
  else
    .error (.parse ("Invalid AT URI: " ++ uri))

/-! ### SQL text ordering and `LIKE` (`cli/src/storage/sqlite.rs`)

The storage layer is SQLite; `list_items` builds a SQL query.  Its semantics
are embedded here: TEXT comparison is bytewise (`memcmp`), which on valid
UTF-8 coincides with code-point lexicographic order, and the default `LIKE`
operator is case-insensitive for ASCII letters only, with `%` matching any
character sequence and `_` matching exactly one character. -/

/-- Lower-case folding for ASCII letters, as SQLite `LIKE` applies. -/
def asciiLower (c : Char) : Char :=
  if 65 ≤ c.toNat ∧ c.toNat ≤ 90 then Char.ofNat (c.toNat + 32) else c

/-- Bytewise (code-point lexicographic) `≤` on text, the SQLite BINARY
collation used by `published_at >= ?` and `ORDER BY published_at`. -/
def charListLe : List Char → List Char → Bool
  | [], _ => true
  | _ :: _, [] => false
  | a :: as, b :: bs =>
    if a.toNat < b.toNat then true
    else if a.toNat = b.toNat then charListLe as bs
    else false

/-- `a <= b` on strings under the SQLite BINARY collation. -/
def strLeB (a b : String) : Bool := charListLe a.toList b.toList

/-- SQLite `LIKE` with no escape clause: `%` matches any sequence, `_` any
single character, and ordinary characters compare ASCII-case-insensitively. -/
def likeMatch : List Char → List Char → Bool
  | [] => fun s => s.isEmpty
  | p :: ps => fun s =>
    if p = '%' then s.tails.any (likeMatch ps)
    else
      match s with
      | [] => false
      | c :: s' => (if p = '_' then true else asciiLower p == asciiLower c) && likeMatch ps s'

/-- The pattern `%query%` that `list_items` binds for the `query` filter. -/
def likePattern (q : String) : List Char := '%' :: (q.toList ++ ['%'])

/-! ### SQLite storage (`cli/src/storage/sqlite.rs`)

The `items` table of `INIT_SQL` declares `id TEXT PRIMARY KEY` (a sole
primary-key column; `source_kind` is an ordinary NOT NULL column), so the
table is modelled as a list of rows and `INSERT OR REPLACE` resolves a
conflict on `id` alone by deleting the old row and inserting the new one. -/

/-- `SqliteStorage::insert_or_replace_item`: `INSERT OR REPLACE INTO items`,
writing every column from the given item; the conflict target is the
`id` primary key. -/
def insert_or_replace_item (db : List Item) (item : Item) : List Item :=
  db.filter (fun r => r.id != item.id) ++ [item]

/-- The `WHERE` clause built by `SqliteStorage::list_items`: one conjunct per
present filter field.  `source_kind = ?` compares the stored text against
`filter.source_kind.unwrap().to_string()`; `published_at >= ?` uses BINARY
text comparison; `(title LIKE ? OR summary LIKE ?)` binds `%query%` twice,
and a SQL NULL column never satisfies `LIKE`. -/
def rowMatches (f : ListFilter) (it : Item) : Bool :=
  (match f.source_kind with
   | none => true
   | some k => it.source_kind.toText == k.toText) &&
  (match f.source_id with
   | none => true
   | some sid => it.source_id == sid) &&
  (match f.since with
   | none => true
   | some since => strLeB since it.published_at) &&
  (match f.query with
   | none => true
   | some q =>
     (match it.title with
      | some t => likeMatch (likePattern q) t.toList
      | none => false) ||
     (match it.summary with
      | some s => likeMatch (likePattern q) s.toList
      | none => false))

/-- The `ORDER BY published_at DESC` ordering relation. -/
def pubGe (a b : Item) : Prop := strLeB b.published_at a.published_at = true

instance : DecidableRel pubGe := fun a b => by unfold pubGe; infer_instance

/-- `ORDER BY published_at DESC` realised as a sort of the matching rows. -/
def sortDesc (l : List Item) : List Item := List.insertionSort pubGe l

/-- `SqliteStorage::list_items`: rows satisfying the `WHERE` clause, ordered
by `published_at DESC`, then `LIMIT n` applied when the filter has a limit. -/
def list_items (db : List Item) (f : ListFilter) : List Item :=
  let rows := sortDesc (db.filter (rowMatches f))
  match f.limit with
  | none => rows
  | some n => rows.take n

/-! ### Source configuration and the orchestrator (`core/src/lib.rs`) -/

/-- `SubstackConfig`. -/
structure SubstackConfig where
  enabled : Bool
  base_url : String
deriving DecidableEq, Repr

/-- `BlueskyConfig`. -/
structure BlueskyConfig where
  enabled : Bool
  handle : String
deriving DecidableEq, Repr

/-- `LeafletConfig`. -/
structure LeafletConfig where
  enabled : Bool
  id : String
  base_url : String
deriving DecidableEq, Repr

/-- `BearBlogConfig`. -/
structure BearBlogConfig where
  enabled : Bool
  id : String
  base_url : String
deriving DecidableEq, Repr

/-- `SourcesConfig`: one optional substack, one optional bluesky, and lists
of leaflet and bearblog publications. -/
structure SourcesConfig where
  substack : Option SubstackConfig := none
  bluesky : Option BlueskyConfig := none
  leaflet : List LeafletConfig := []
  bearblog : List BearBlogConfig := []
deriving DecidableEq, Repr

/-- `Config`, restricted to the `sources` section: `sync_all_sources` reads
only `config.sources` (the database/deployment/cors sections never flow into
it). -/
structure Config where
  sources : SourcesConfig := {}
deriving DecidableEq, Repr

/-- One configured source instance, tagged by its kind. -/
inductive SourceInstance where
  | substack (c : SubstackConfig)
  | bluesky (c : BlueskyConfig)
  | leaflet (c : LeafletConfig)
  | bearblog (c : BearBlogConfig)
deriving DecidableEq, Repr

/-- Rust `str::trim_start_matches(pat)`: repeatedly removes the prefix
`pat` while it is present (fuelled by the string length, which bounds the
number of removals for a nonempty pattern). -/
def trimStartAux (pat : List Char) : Nat → List Char → List Char
  | 0, s => s
  | fuel + 1, s =>
    if pat ≠ [] ∧ pat.isPrefixOf s then trimStartAux pat fuel (s.drop pat.length) else s

/-- Rust `str::trim_start_matches`. -/
def trimStartMatches (pat s : List Char) : List Char := trimStartAux pat s.length s

/-- Rust `str::trim_end_matches(c)`: removes every trailing occurrence. -/
def trimEndMatchesChar (c : Char) (s : List Char) : List Char :=
  (s.reverse.dropWhile (· == c)).reverse

/-- The substack source id computed inside `sync_all_sources`:
`base_url.trim_start_matches("https://").trim_start_matches("http://").trim_end_matches('/')`. -/
def normalizeBaseUrl (s : String) : String :=
  (trimEndMatchesChar '/'
    (trimStartMatches "http://".toList (trimStartMatches "https://".toList s.toList))).asString

/-- The `enabled` flag of an instance. -/
def instanceEnabled : SourceInstance → Bool
  | .substack c => c.enabled
  | .bluesky c => c.enabled
  | .leaflet c => c.enabled
  | .bearblog c => c.enabled

/-- The kind tag of an instance. -/
def instanceKind : SourceInstance → SourceKind
  | .substack _ => .substack
  | .bluesky _ => .bluesky
  | .leaflet _ => .leaflet
  | .bearblog _ => .bearBlog

/-- The source id each block of `sync_all_sources` compares against the
`source_id` argument: the normalized base URL for substack, the handle for
bluesky, the explicit `id` for leaflet and bearblog. -/
def resolvedSourceId : SourceInstance → String
  | .substack c => normalizeBaseUrl c.base_url
  | .bluesky c => c.handle
  | .leaflet c => c.id
  | .bearblog c => c.id

/-- The `match (kind, source_id)` arms shared by all four blocks of
`sync_all_sources`: a set kind that differs from the instance's kind rejects;
otherwise a set source id must equal the instance's resolved id; otherwise
accept. -/
def kindSidOk (myKind : SourceKind) (resolvedId : String)
    (kind : Option SourceKind) (sid : Option String) : Bool :=
  match kind, sid with
  | some k, s =>
    if k ≠ myKind then false
    else
      match s with
      | some sidv => resolvedId == sidv
      | none => true
  | none, some sidv => resolvedId == sidv
  | none, none => true

/-- `should_sync` for one instance: enabled, and passing the kind/id match. -/
def shouldSync (i : SourceInstance) (kind : Option SourceKind) (sid : Option String) : Bool :=
  instanceEnabled i && kindSidOk (instanceKind i) (resolvedSourceId i) kind sid

/-- The configured instances in the order `sync_all_sources` visits them:
the substack block, then the bluesky block, then the leaflet list, then the
bearblog list. -/
def instancesOf (config : Config) : List SourceInstance :=
  (config.sources.substack.toList.map .substack) ++
  (config.sources.bluesky.toList.map .bluesky) ++
  config.sources.leaflet.map .leaflet ++
  config.sources.bearblog.map .bearblog

/-- The loop body of `sync_all_sources` over the remaining instances: each
selected instance's `fetcher.sync(storage)?` either increments the count or
early-returns its error. -/
def syncAllGo (syncFn : SourceInstance → Except PaiError Unit)
    (kind : Option SourceKind) (sid : Option String) :
    List SourceInstance → Nat → Except PaiError Nat
  | [], n => .ok n
  | i :: rest, n =>
    if shouldSync i kind sid then
      match syncFn i with
      | .error e => .error e
      | .ok _ => syncAllGo syncFn kind sid rest (n + 1)
    else syncAllGo syncFn kind sid rest n

/-- `sync_all_sources`: the fetcher construction and its network-performing
`sync(storage)` call are abstracted as the oracle `syncFn`, everything else
(iteration order, filtering, counting, `?` propagation) is translated
directly. -/
def sync_all_sources (config : Config) (syncFn : SourceInstance → Except PaiError Unit)
    (kind : Option SourceKind) (sid : Option String) : Except PaiError Nat :=
  syncAllGo syncFn kind sid (instancesOf config) 0

/-! ### Bluesky sync loop (`core/src/fetchers/bluesky.rs`) -/

/-- `Author` of a post view; `displayName` is never read by the sync. -/
structure Author where
  did : String
  handle : String
  displayName : Option String := none
deriving DecidableEq, Repr

/-- The post `record` JSON value as the sync reads it: the code performs only
`record.get("text").and_then(as_str)` and `record.get("createdAt").and_then(as_str)`,
so the record is modelled by those two lookups' results. -/
structure RecordVal where
  text : Option String := none
  createdAt : Option String := none
deriving DecidableEq, Repr

/-- `PostView`. -/
structure PostView where
  uri : String
  cid : String
  author : Author
  record : RecordVal
  indexedAt : String
deriving DecidableEq, Repr

/-- `FeedViewPost`: the sync only tests `reason.is_none()`, so `reason` is
modelled by its presence. -/
structure FeedViewPost where
  post : PostView
  reason : Option Unit := none
deriving DecidableEq, Repr

/-- How one record terminates the whole sync pass: a propagated `?` error,
or a Rust panic (the byte slice inside `create_title`). -/
inductive SyncStop where
  | err (e : PaiError)
  | panic
deriving DecidableEq, Repr

/-- `BlueskyFetcher::is_original_post`: no `reason` field means not a
repost/quote. -/
def is_original_post (fp : FeedViewPost) : Bool := fp.reason.isNone

/-- `BlueskyFetcher::extract_text`. -/
def extract_text (r : RecordVal) : Option String := r.text

/-- `create_title` on a Rust `String` (`none` = panic). -/
def createTitleS (t : String) : Option String := (create_title t.toList).map List.asString

/-- The title derivation step of the per-record body: `text.as_ref().map(|t|
Self::create_title(t))`, where a panic inside `create_title` stops
everything. -/
def titleStep (fp : FeedViewPost) : Except SyncStop (Option String) :=
  match extract_text fp.post.record with
  | none => .ok none
  | some t =>
    match createTitleS t with
    | some ti => .ok (some ti)
    | none => .error .panic

/-- The per-record body of `BlueskyFetcher::sync` after the repost filter:
derive the optional title (panicking as `create_title` does), convert the AT
URI (the code applies `?`, so failure stops the sync), and assemble the item;
`now` stands for `Utc::now().to_rfc3339()`. -/
def mkBlueskyItem (handle now : String) (fp : FeedViewPost) : Except SyncStop Item :=
  match titleStep fp with
  | .error s => .error s
  | .ok title =>
    match at_uri_to_url fp.post.uri fp.post.author.handle with
    | .error e => .error (.err e)
    | .ok url =>
      .ok
        { id := fp.post.uri
          source_kind := .bluesky
          source_id := handle
          author := some fp.post.author.handle
          title := title
          summary := extract_text fp.post.record
          url := url
          content_html := none
          published_at := fp.post.record.createdAt.getD now
          created_at := now }

/-- The `for feed_post in response.feed` loop of `BlueskyFetcher::sync`:
returns the items passed to `insert_or_replace_item`, in upsert order, and
`some stop` when a record terminated the pass early (later records are then
never reached). -/
def blueskyProcessFeed (handle now : String) : List FeedViewPost → List Item × Option SyncStop
  | [] => ([], none)
  | fp :: rest =>
    if is_original_post fp then
      match mkBlueskyItem handle now fp with
      | .error s => ([], some s)
      | .ok item =>
        let r := blueskyProcessFeed handle now rest
        (item :: r.1, r.2)
    else blueskyProcessFeed handle now rest

/-- The storage state after a Bluesky sync pass over a decoded feed. -/
def blueskySyncDb (handle now : String) (feed : List FeedViewPost) (db : List Item) : List Item :=
  (blueskyProcessFeed handle now feed).1.foldl insert_or_replace_item db

/-! ### Limit validation (`cli/src/main.rs` and `server/src/server.rs`) -/

/-- `DEFAULT_LIMIT` in `server/src/server.rs`. -/
def DEFAULT_LIMIT : Nat := 20

/-- `ensure_positive_limit`, identical in `cli/src/main.rs` and
`server/src/server.rs`: zero is an `InvalidArgument`, anything else passes
through. -/
def ensure_positive_limit (limit : Nat) : Except PaiError Nat :=
  if limit = 0 then .error (.invalidArgument "Limit must be greater than zero")
  else .ok limit

/-- Rust `str::trim` (whitespace as recognised by `Char.isWhitespace`). -/
def trimString (s : String) : String :=
  ((s.toList.dropWhile Char.isWhitespace).reverse.dropWhile Char.isWhitespace).reverse.asString

/-- `normalize_optional_string`: trim, and drop the field when empty. -/
def normalize_optional_string (v : Option String) : Option String :=
  v.bind fun input =>
    let trimmed := trimString input
    if trimmed = "" then none else some trimmed

/-- `FeedQuery`, the decoded query parameters of `GET /api/feed`. -/
structure FeedQuery where
  source_kind : Option SourceKind := none
  source_id : Option String := none
  limit : Option Nat := none
  since : Option String := none
  q : Option String := none
deriving DecidableEq, Repr

/-- `FeedQuery::into_filter`: a present `limit` goes through
`ensure_positive_limit` (whose error propagates), an absent one becomes
`DEFAULT_LIMIT`; the other fields are normalized. -/
def FeedQuery.into_filter (self : FeedQuery) : Except PaiError ListFilter :=
  let mkFilter : Nat → ListFilter := fun limit =>
    { source_kind := self.source_kind
      source_id := normalize_optional_string self.source_id
      limit := some limit
      since := normalize_optional_string self.since
      query := normalize_optional_string self.q }
  match self.limit with
  | some v =>
    match ensure_positive_limit v with
    | .error e => .error e
    | .ok limit => .ok (mkFilter limit)
  | none => .ok (mkFilter DEFAULT_LIMIT)

/-- The `Display` messages of `PaiError` (the `thiserror` attributes). -/
def PaiError.toText : PaiError → String
  | .unknownSourceKind m => "Unknown source kind: " ++ m
  | .invalidArgument m => "Invalid argument: " ++ m
  | .storage m => "Storage error: " ++ m
  | .fetch m => "Fetch error: " ++ m
  | .parse m => "Parse error: " ++ m
  | .config m => "Configuration error: " ++ m
  | .io m => "IO error: " ++ m

/-- `ApiError` in `server/src/server.rs`: an HTTP status and a message. -/
structure ApiError where
  status : Nat
  message : String
deriving DecidableEq, Repr

/-- `impl From<PaiError> for ApiError`: `InvalidArgument` becomes a 400 with
the bare message, every other error a 500 with its display string. -/
def ApiError.from_pai : PaiError → ApiError
  | .invalidArgument msg => { status := 400, message := msg }
  | other => { status := 500, message := other.toText }

/-- The JSON error body `{"error": ...}`. -/
structure ErrorBody where
  error : String
deriving DecidableEq, Repr

/-- `impl IntoResponse for ApiError`: status code plus JSON error body. -/
def ApiError.into_response (self : ApiError) : Nat × ErrorBody :=
  (self.status, { error := self.message })

/-! ### Spec-side predicates

These follow the spec's words, independently of the SQL embedding, so the
claims about `list_items` compare two formulations rather than restate one. -/

/-- ASCII case folding of a character sequence. -/
def foldL (l : List Char) : List Char := l.map asciiLower

/-- Plain substring containment: `needle` occurs contiguously in `hay`. -/
def containsSub (needle hay : List Char) : Bool := hay.tails.any needle.isPrefixOf

/-- Whether a query string contains a SQL `LIKE` wildcard. -/
def hasWildcard (q : String) : Bool := q.toList.any fun c => c == '%' || c == '_'

/-- The query constraint as the code realises it, on one nullable column:
the column is present and `LIKE '%query%'` accepts it. -/
def likeSat (q : String) (fld : Option String) : Prop :=
  ∃ t, fld = some t ∧ likeMatch (likePattern q) t.toList = true

/-- The query constraint in substring form, on one nullable column: the
column is present and contains the query as a substring up to ASCII case. -/
def subSat (q : String) (fld : Option String) : Prop :=
  ∃ t, fld = some t ∧ containsSub (foldL q.toList) (foldL t.toList) = true

/-- The spec's per-item reading of a filter: every set field constrains the
item (kind equality, source id equality, `published_at >= since` in string
order, and the query clause against title OR summary — by `LIKE` in general,
equivalently by case-insensitive substring when the query has no wildcard);
absent fields impose nothing. -/
def satisfiesFilter (f : ListFilter) (it : Item) : Prop :=
  (∀ k, f.source_kind = some k → it.source_kind = k) ∧
  (∀ s, f.source_id = some s → it.source_id = s) ∧
  (∀ s, f.since = some s → strLeB s it.published_at = true) ∧
  (∀ q, f.query = some q →
    (likeSat q it.title ∨ likeSat q it.summary) ∧
    (hasWildcard q = false → subSat q it.title ∨ subSat q it.summary))

/-- The instances `sync_all_sources` selects, in visiting order. -/
def selectedInstances (config : Config) (kind : Option SourceKind) (sid : Option String) :
    List SourceInstance :=
  (instancesOf config).filter fun i => shouldSync i kind sid

/-! ### Concrete instances used by witnesses and counterexamples -/

/-- A representative stored item. -/
def sampleItem : Item :=
  { id := "test-1"
    source_kind := .substack
    source_id := "test.substack.com"
    author := some "Test Author"
    title := some "Test Title"
    summary := some "Test summary"
    url := "https://example.com/test-1"
    content_html := none
    published_at := "2024-01-02T00:00:00Z"
    created_at := "2024-01-02T00:00:00Z" }

/-- The same logical item re-synced with a changed title. -/
def sampleItemUpdated : Item := { sampleItem with title := some "Updated Title" }

/-- An item whose id collides with `sampleCrossY` under a different kind. -/
def sampleCrossX : Item := { sampleItem with id := "shared-id" }

/-- A bluesky item carrying the same id as `sampleCrossX`. -/
def sampleCrossY : Item :=
  { sampleItem with
      id := "shared-id"
      source_kind := .bluesky
      source_id := "user.bsky.social"
      title := some "From bluesky" }

/-- An item whose title matches `LIKE '%R_st%'` without containing `R_st`. -/
def sampleRust : Item := { sampleItem with id := "rust-1", title := some "Rust", summary := none }

/-- A second item published later, for ordering/limit checks. -/
def sampleLater : Item :=
  { sampleItem with id := "test-2", published_at := "2024-03-01T00:00:00Z" }

/-- A config with one enabled substack and one enabled bluesky instance. -/
def sampleConfig : Config :=
  { sources :=
      { substack := some { enabled := true, base_url := "https://pub.substack.com/" }
        bluesky := some { enabled := true, handle := "user.bsky.social" }
        leaflet := []
        bearblog := [] } }

/-- An oracle that fails exactly on the bluesky instance. -/
def sampleOracle : SourceInstance → Except PaiError Unit
  | .bluesky _ => .error (.fetch "boom")
  | _ => .ok ()

/-- A well-formed original bluesky feed entry. -/
def sampleGoodPost : FeedViewPost :=
  { post :=
      { uri := "at://did:plc:abc123/app.bsky.feed.post/xyz789"
        cid := "cid-1"
        author := { did := "did:plc:abc123", handle := "user.example", displayName := none }
        record := { text := some "hello world", createdAt := some "2024-01-01T12:00:00Z" }
        indexedAt := "2024-01-01T12:00:00Z" }
    reason := none }

/-- An original feed entry whose post URI is not an AT URI. -/
def sampleBadPost : FeedViewPost :=
  { sampleGoodPost with
      post := { sampleGoodPost.post with uri := "invalid-uri" } }

/-- A feed entry flagged as a repost. -/
def sampleRepost : FeedViewPost := { sampleGoodPost with reason := some () }

/-- The item the sync derives from `sampleGoodPost` for handle `"h"` at
clock value `"now"`. -/
def sampleGoodItem : Item :=
  { id := "at://did:plc:abc123/app.bsky.feed.post/xyz789"
    source_kind := .bluesky
    source_id := "h"
    author := some "user.example"
    title := some "hello world"
    summary := some "hello world"
    url := "https://bsky.app/profile/user.example/post/xyz789"
    content_html := none
    published_at := "2024-01-01T12:00:00Z"
    created_at := "now" }

/-! ### Helper lemmas -/

theorem filter_cons_pos {α : Type} (p : α → Bool) (a : α) (l : List α) (h : p a = true) :
    List.filter p (a :: l) = a :: List.filter p l := by
  simp [List.filter_cons, h]

theorem filter_cons_neg {α : Type} (p : α → Bool) (a : α) (l : List α) (h : p a = false) :
    List.filter p (a :: l) = List.filter p l := by
  simp [List.filter_cons, h]

theorem utf8Len_cons (c : Char) (l : List Char) :
    utf8Len (c :: l) = charUtf8Size c + utf8Len l := by
  simp [utf8Len]

theorem utf8Len_append (a b : List Char) : utf8Len (a ++ b) = utf8Len a + utf8Len b := by
  simp [utf8Len]

theorem byteTake_utf8Len :
    ∀ (l : List Char) (n : Nat) (p : List Char), byteTake n l = some p → utf8Len p = n := by
  intro l
  induction l with
  | nil =>
    intro n p h
    unfold byteTake at h
    by_cases h0 : n = 0
    · rw [if_pos h0] at h
      cases h
      simp [utf8Len, h0]
    · rw [if_neg h0] at h
      cases h
  | cons c cs ih =>
    intro n p h
    unfold byteTake at h
    by_cases h0 : n = 0
    · rw [if_pos h0] at h
      cases h
      simp [utf8Len, h0]
    · rw [if_neg h0] at h
      by_cases hsz : charUtf8Size c ≤ n
      · rw [if_pos hsz] at h
        cases hq : byteTake (n - charUtf8Size c) cs with
        | none => rw [hq] at h; cases h
        | some q =>
          rw [hq] at h
          cases h
          rw [utf8Len_cons, ih (n - charUtf8Size c) q hq]
          omega
      · rw [if_neg hsz] at h
        cases h

/-! ### C1: upsert on a shared `(source_kind, id)` key -/

/-- C1.  Upserting two items that share the same `(source_kind, id)` key,
the second with different field values, leaves exactly one stored row for
that key, carrying the later item's fields; the earlier row is gone and no
conflict error is possible (the operation is total). -/
theorem upsert_same_key_single_row (db : List Item) (a b : Item)
    (hkind : a.source_kind = b.source_kind) (hid : a.id = b.id) (hne : a ≠ b) :
    (insert_or_replace_item (insert_or_replace_item db a) b).filter
        (fun r => r.source_kind == b.source_kind && r.id == b.id) = [b]
    ∧ a ∉ insert_or_replace_item (insert_or_replace_item db a) b := by
  have main : insert_or_replace_item (insert_or_replace_item db a) b
      = db.filter (fun r => r.id != b.id) ++ [b] := by
    unfold insert_or_replace_item
    rw [List.filter_append, List.filter_filter]
    have h1 : (db.filter fun r => r.id != b.id && r.id != a.id)
        = db.filter fun r => r.id != b.id := by
      apply List.filter_congr
      intro r _
      rw [hid, Bool.and_self]
    have h2 : List.filter (fun r => r.id != b.id) [a] = [] := by
      simp [hid]
    rw [h1, h2, List.append_nil]
  constructor
  · rw [main, List.filter_append, List.filter_filter]
    have h3 : (db.filter fun r =>
        (r.source_kind == b.source_kind && r.id == b.id) && r.id != b.id) = [] := by
      rw [List.filter_eq_nil_iff]
      intro r _
      by_cases hidr : r.id = b.id
      · simp [hidr]
      · simp [hidr]
    rw [h3]
    simp
  · rw [main]
    intro hmem
    rcases List.mem_append.mp hmem with hL | hB
    · rcases List.mem_filter.mp hL with ⟨_, hcond⟩
      rw [bne_iff_ne] at hcond
      exact hcond hid
    · exact hne (List.mem_singleton.mp hB)

/-- C1 witness: re-upserting `sampleItem` with an updated title leaves the
updated row as the only one under its key. -/
theorem upsert_same_key_single_row_witness :
    (insert_or_replace_item (insert_or_replace_item [] sampleItem) sampleItemUpdated).filter
        (fun r => r.source_kind == sampleItemUpdated.source_kind && r.id == sampleItemUpdated.id)
      = [sampleItemUpdated]
    ∧ sampleItem ∉ insert_or_replace_item (insert_or_replace_item [] sampleItem) sampleItemUpdated :=
  upsert_same_key_single_row [] sampleItem sampleItemUpdated (by decide) (by decide) (by decide)

/-! ### C6: dedup scope across source kinds -/

/-- C6 counterexample.  Two items with equal id but different source kinds:
the claim promises two distinct stored rows, but the second upsert replaces
the first (the table's primary key is `id` alone), leaving one row. -/
theorem upsert_cross_kind_counterexample :
    insert_or_replace_item (insert_or_replace_item [] sampleCrossX) sampleCrossY = [sampleCrossY]
    ∧ sampleCrossX.id = sampleCrossY.id
    ∧ sampleCrossX.source_kind ≠ sampleCrossY.source_kind := by decide

/-- C6 amended.  Dedup is keyed on `id` alone (`id TEXT PRIMARY KEY`): for
two items with equal id, even of different source kinds, upserting both
leaves exactly one stored row under that id — the later one — and the
earlier item is gone. -/
theorem upsert_id_only_dedup (db : List Item) (x y : Item)
    (hid : x.id = y.id) (hkind : x.source_kind ≠ y.source_kind) :
    (insert_or_replace_item (insert_or_replace_item db x) y).filter (fun r => r.id == y.id) = [y]
    ∧ x ∉ insert_or_replace_item (insert_or_replace_item db x) y := by
  have main : insert_or_replace_item (insert_or_replace_item db x) y
      = db.filter (fun r => r.id != y.id) ++ [y] := by
    unfold insert_or_replace_item
    rw [List.filter_append, List.filter_filter]
    have h1 : (db.filter fun r => r.id != y.id && r.id != x.id)
        = db.filter fun r => r.id != y.id := by
      apply List.filter_congr
      intro r _
      rw [hid, Bool.and_self]
    have h2 : List.filter (fun r => r.id != y.id) [x] = [] := by
      simp [hid]
    rw [h1, h2, List.append_nil]
  constructor
  · rw [main, List.filter_append, List.filter_filter]
    have h3 : (db.filter fun r => (r.id == y.id) && r.id != y.id) = [] := by
      rw [List.filter_eq_nil_iff]
      intro r _
      by_cases hidr : r.id = y.id
      · simp [hidr]
      · simp [hidr]
    rw [h3]
    simp
  · rw [main]
    intro hmem
    rcases List.mem_append.mp hmem with hL | hB
    · rcases List.mem_filter.mp hL with ⟨_, hcond⟩
      rw [bne_iff_ne] at hcond
      exact hcond hid
    · exact hkind (congrArg Item.source_kind (List.mem_singleton.mp hB))

/-- C6 amended witness: the cross-kind collision concretely leaves only the
bluesky row. -/
theorem upsert_id_only_dedup_witness :
    (insert_or_replace_item (insert_or_replace_item [] sampleCrossX) sampleCrossY).filter
        (fun r => r.id == sampleCrossY.id) = [sampleCrossY]
    ∧ sampleCrossX ∉ insert_or_replace_item (insert_or_replace_item [] sampleCrossX) sampleCrossY :=
  upsert_id_only_dedup [] sampleCrossX sampleCrossY (by decide) (by decide)

/-! ### C5 and C10: title truncation -/

/-- C5 counterexample.  A text of 60 characters (at most 100 characters) that
`create_title` does not return unmodified: its UTF-8 byte length is 119, so
the code truncates it at byte 97 (49 characters) and appends the ellipsis. -/
theorem create_title_chars_counterexample :
    ('a' :: List.replicate 59 'é').length = 60
    ∧ create_title ('a' :: List.replicate 59 'é')
        = some ('a' :: (List.replicate 48 'é' ++ ellipsis))
    ∧ create_title ('a' :: List.replicate 59 'é') ≠ some ('a' :: List.replicate 59 'é') := by
  decide

/-- C5 amended.  The 100/97+3 boundary is in bytes, not characters: text of
at most 100 UTF-8 bytes is returned unmodified; text of 101+ bytes, when
byte offset 97 is a character boundary so the slice succeeds, becomes its
first 97 bytes plus the 3-byte ellipsis, exactly 100 bytes. -/
theorem create_title_bytes_spec (text : List Char) :
    (utf8Len text ≤ 100 → create_title text = some text)
    ∧ ∀ p, 100 < utf8Len text → byteTake 97 text = some p →
        create_title text = some (p ++ ellipsis) ∧ utf8Len (p ++ ellipsis) = 100 := by
  constructor
  · intro h
    unfold create_title
    rw [if_pos h]
  · intro p hlen htake
    unfold create_title
    rw [if_neg (by omega), htake]
    refine ⟨rfl, ?_⟩
    rw [utf8Len_append, byteTake_utf8Len text 97 p htake]
    rfl

set_option maxRecDepth 8192 in
/-- C5 amended witness: 101 ASCII characters truncate to 97 plus ellipsis,
100 bytes in total. -/
theorem create_title_bytes_spec_witness :
    create_title (List.replicate 101 'a') = some (List.replicate 97 'a' ++ ellipsis)
    ∧ utf8Len (List.replicate 97 'a' ++ ellipsis) = 100 :=
  (create_title_bytes_spec (List.replicate 101 'a')).2 (List.replicate 97 'a')
    (by decide) (by decide)

/-- C10.  `create_title` is not total: on a 120-byte text whose byte offset
97 falls inside a two-byte character, the slice `&text[..97]` panics
(modelled as `none`). -/
theorem create_title_panics_on_multibyte_boundary :
    create_title (List.replicate 60 'é') = none
    ∧ 100 < utf8Len (List.replicate 60 'é') := by decide

/-! ### C9: AT URI to URL conversion -/

/-- C9 counterexample.  The string `at:/a/b/c` contains no `at://` anywhere
(so it lacks the scheme-qualified `at://` structure), yet `at_uri_to_url`
accepts it and returns a URL rather than a Parse error. -/
theorem at_uri_claim_counterexample :
    at_uri_to_url "at:/a/b/c" "user.example"
      = .ok "https://bsky.app/profile/user.example/post/c"
    ∧ containsSub "at://".toList "at:/a/b/c".toList = false := by decide

/-- C9 amended.  The documented example maps to its canonical URL, and a
Parse error is produced exactly for inputs failing the code's structural
check — fewer than 4 `'/'`-separated fields, or a first field other than
`"at:"` (a weaker condition than containing `at://`). -/
theorem at_uri_to_url_spec :
    at_uri_to_url "at://did:plc:abc123/app.bsky.feed.post/xyz789" "user.example"
      = .ok "https://bsky.app/profile/user.example/post/xyz789"
    ∧ ∀ uri handle, atUriGuard uri = false →
        at_uri_to_url uri handle = .error (.parse ("Invalid AT URI: " ++ uri)) := by
  constructor
  · decide
  · intro uri handle h
    unfold at_uri_to_url
    rw [h]
    rfl

/-- C9 amended witness: a structureless string is rejected as Parse. -/
theorem at_uri_to_url_spec_witness :
    at_uri_to_url "invalid-uri" "h" = .error (.parse ("Invalid AT URI: " ++ "invalid-uri")) :=
  at_uri_to_url_spec.2 "invalid-uri" "h" (by decide)

/-! ### C7: zero limit rejection -/

/-- C7.  A limit of 0 is rejected as `InvalidArgument` by the CLI validator
and by the HTTP query path (`FeedQuery::into_filter`), never defaulted, and
the resulting API error renders as status 400 with body
`{error = "Limit must be greater than zero"}`. -/
theorem limit_zero_rejected :
    ensure_positive_limit 0 = .error (.invalidArgument "Limit must be greater than zero")
    ∧ ∀ q : FeedQuery, q.limit = some 0 →
        q.into_filter = .error (.invalidArgument "Limit must be greater than zero")
        ∧ (ApiError.from_pai (.invalidArgument "Limit must be greater than zero")).into_response
            = (400, { error := "Limit must be greater than zero" }) := by
  refine ⟨rfl, ?_⟩
  intro q h
  refine ⟨?_, rfl⟩
  unfold FeedQuery.into_filter
  rw [h]
  rfl

/-- C7 witness: the concrete query `?limit=0` fails with `InvalidArgument`. -/
theorem limit_zero_rejected_witness :
    ({ limit := some 0 } : FeedQuery).into_filter
      = .error (.invalidArgument "Limit must be greater than zero") :=
  (limit_zero_rejected.2 { limit := some 0 } rfl).1

/-! ### C8: reposts are never stored -/

theorem mkBlueskyItem_id {handle now : String} {fp : FeedViewPost} {item : Item}
    (h : mkBlueskyItem handle now fp = .ok item) : item.id = fp.post.uri := by
  unfold mkBlueskyItem at h
  split at h
  · simp at h
  · split at h
    · simp at h
    · cases h
      rfl

/-- C8.  Every item a Bluesky sync pass hands to the storage upsert comes
from a feed entry whose `reason` field is absent: entries flagged as
reposts/reshares are filtered out before mapping and never stored. -/
theorem bluesky_repost_never_stored (handle now : String) (feed : List FeedViewPost) :
    ∀ it ∈ (blueskyProcessFeed handle now feed).1,
      ∃ fp, fp ∈ feed ∧ fp.reason = none ∧ it.id = fp.post.uri := by
  induction feed with
  | nil =>
    intro it h
    simp [blueskyProcessFeed] at h
  | cons fp rest ih =>
    intro it hmem
    unfold blueskyProcessFeed at hmem
    by_cases horig : is_original_post fp
    · rw [if_pos horig] at hmem
      cases hmk : mkBlueskyItem handle now fp with
      | error s =>
        rw [hmk] at hmem
        simp at hmem
      | ok item =>
        rw [hmk] at hmem
        simp only [List.mem_cons] at hmem
        rcases hmem with h | h
        · refine ⟨fp, List.mem_cons_self fp rest, ?_, ?_⟩
          · exact Option.isNone_iff_eq_none.mp horig
          · rw [h]
            exact mkBlueskyItem_id hmk
        · obtain ⟨fp', hin, hr, hid⟩ := ih it h
          exact ⟨fp', List.mem_cons_of_mem fp hin, hr, hid⟩
    · rw [if_neg horig] at hmem
      obtain ⟨fp', hin, hr, hid⟩ := ih it hmem
      exact ⟨fp', List.mem_cons_of_mem fp hin, hr, hid⟩

/-- C8 witness: over a feed of one repost and one original post, the stored
item traces back to an entry without a `reason` field. -/
theorem bluesky_repost_never_stored_witness :
    ∃ fp, fp ∈ [sampleRepost, sampleGoodPost] ∧ fp.reason = none
      ∧ sampleGoodItem.id = fp.post.uri :=
  bluesky_repost_never_stored "h" "now" [sampleRepost, sampleGoodPost] sampleGoodItem
    (by decide)

/-! ### C4: one malformed record aborts the whole Bluesky sync -/

/-- C4.  Evaluating the sync loop on a feed whose first original post has a
malformed AT URI: the pass stops with a Parse error, stores nothing — the
later well-formed post included — whereas the same well-formed post alone
syncs fine.  This contradicts the claim that a single malformed record is
skipped and the remaining records stored. -/
theorem bluesky_malformed_uri_aborts_sync :
    blueskyProcessFeed "h" "now" [sampleBadPost, sampleGoodPost]
      = ([], some (.err (.parse "Invalid AT URI: invalid-uri")))
    ∧ blueskySyncDb "h" "now" [sampleBadPost, sampleGoodPost] [] = []
    ∧ blueskyProcessFeed "h" "now" [sampleGoodPost] = ([sampleGoodItem], none) := by
  decide

/-! ### C3: orchestration over all configured sources -/

theorem syncAllGo_ok (syncFn : SourceInstance → Except PaiError Unit)
    (kind : Option SourceKind) (sid : Option String) :
    ∀ (l : List SourceInstance) (n : Nat),
      (∀ i ∈ l.filter (fun i => shouldSync i kind sid), syncFn i = .ok ()) →
      syncAllGo syncFn kind sid l n
        = .ok (n + (l.filter (fun i => shouldSync i kind sid)).length) := by
  intro l
  induction l with
  | nil =>
    intro n _
    simp [syncAllGo]
  | cons i rest ih =>
    intro n h
    unfold syncAllGo
    by_cases hs : shouldSync i kind sid
    · rw [if_pos hs]
      have hok : syncFn i = .ok () := by
        refine h i ?_
        rw [filter_cons_pos _ i rest hs]
        exact List.mem_cons_self i _
      rw [hok]
      show syncAllGo syncFn kind sid rest (n + 1) = _
      rw [ih (n + 1) (fun j hj => h j (by
        rw [filter_cons_pos _ i rest hs]
        exact List.mem_cons_of_mem i hj))]
      rw [filter_cons_pos _ i rest hs, List.length_cons]
      congr 1
      omega
    · rw [if_neg hs]
      rw [ih n (fun j hj => h j (by
        rw [filter_cons_neg _ i rest (Bool.eq_false_iff.mpr hs)]
        exact hj))]
      rw [filter_cons_neg _ i rest (Bool.eq_false_iff.mpr hs)]

theorem syncAllGo_error (syncFn : SourceInstance → Except PaiError Unit)
    (kind : Option SourceKind) (sid : Option String) :
    ∀ (l : List SourceInstance) (n : Nat) (pre : List SourceInstance) (i : SourceInstance)
      (post : List SourceInstance) (e : PaiError),
      l.filter (fun j => shouldSync j kind sid) = pre ++ i :: post →
      (∀ j ∈ pre, syncFn j = .ok ()) →
      syncFn i = .error e →
      syncAllGo syncFn kind sid l n = .error e := by
  intro l
  induction l with
  | nil =>
    intro n pre i post e hsel _ _
    rw [List.filter_nil] at hsel
    cases pre <;> simp at hsel
  | cons hd rest ih =>
    intro n pre i post e hsel hpre herr
    unfold syncAllGo
    by_cases hs : shouldSync hd kind sid
    · rw [if_pos hs]
      rw [filter_cons_pos _ hd rest hs] at hsel
      cases pre with
      | nil =>
        rw [List.nil_append] at hsel
        obtain ⟨h1, _⟩ := List.cons.inj hsel
        rw [h1, herr]
      | cons p0 pre' =>
        rw [List.cons_append] at hsel
        obtain ⟨h1, h2⟩ := List.cons.inj hsel
        have hok : syncFn hd = .ok () := by
          rw [h1]
          exact hpre p0 (List.mem_cons_self p0 pre')
        rw [hok]
        show syncAllGo syncFn kind sid rest (n + 1) = _
        exact ih (n + 1) pre' i post e h2 (fun j hj => hpre j (List.mem_cons_of_mem p0 hj)) herr
    · rw [if_neg hs]
      rw [filter_cons_neg _ hd rest (Bool.eq_false_iff.mpr hs)] at hsel
      exact ih n pre i post e hsel hpre herr

/-- C3.  `sync_all_sources` visits the configured instances in configuration
order (substack, bluesky, the leaflet list, the bearblog list), selecting
those that are enabled and pass the kind/source-id filters (ids resolved as
the explicit `id`, else the stripped base URL, else the handle); when every
selected instance syncs it returns their count, and when one fails — all
earlier selected ones having succeeded — its error is the call's result,
whatever happens at later instances. -/
theorem sync_all_sources_spec (config : Config) (syncFn : SourceInstance → Except PaiError Unit)
    (kind : Option SourceKind) (sid : Option String) :
    ((∀ i ∈ selectedInstances config kind sid, syncFn i = .ok ()) →
      sync_all_sources config syncFn kind sid = .ok (selectedInstances config kind sid).length)
    ∧ (∀ pre i post e, selectedInstances config kind sid = pre ++ i :: post →
        (∀ j ∈ pre, syncFn j = .ok ()) → syncFn i = .error e →
        sync_all_sources config syncFn kind sid = .error e) := by
  constructor
  · intro h
    unfold sync_all_sources
    rw [syncAllGo_ok syncFn kind sid (instancesOf config) 0 h]
    rw [Nat.zero_add]
    rfl
  · intro pre i post e hsel hpre herr
    exact syncAllGo_error syncFn kind sid (instancesOf config) 0 pre i post e hsel hpre herr

/-- C3 witness: with substack and bluesky both enabled and the oracle
failing on bluesky, the whole call returns the bluesky fetch error. -/
theorem sync_all_sources_spec_witness :
    sync_all_sources sampleConfig sampleOracle none none = .error (.fetch "boom") :=
  (sync_all_sources_spec sampleConfig sampleOracle none none).2
    [SourceInstance.substack { enabled := true, base_url := "https://pub.substack.com/" }]
    (SourceInstance.bluesky { enabled := true, handle := "user.bsky.social" })
    [] (.fetch "boom") (by decide) (by decide) (by decide)

/-! ### C2: ordering lemmas for the BINARY collation -/

theorem charListLe_total : ∀ (a b : List Char), charListLe a b = true ∨ charListLe b a = true := by
  intro a
  induction a with
  | nil =>
    intro b
    exact Or.inl rfl
  | cons x xs ih =>
    intro b
    cases b with
    | nil =>
      right
      rfl
    | cons y ys =>
      rcases Nat.lt_trichotomy x.toNat y.toNat with h | h | h
      · left
        show charListLe (x :: xs) (y :: ys) = true
        unfold charListLe
        rw [if_pos h]
      · rcases ih ys with hr | hr
        · left
          show charListLe (x :: xs) (y :: ys) = true
          unfold charListLe
          rw [if_neg (by omega), if_pos h]
          exact hr
        · right
          show charListLe (y :: ys) (x :: xs) = true
          unfold charListLe
          rw [if_neg (by omega), if_pos h.symm]
          exact hr
      · right
        show charListLe (y :: ys) (x :: xs) = true
        unfold charListLe
        rw [if_pos h]

theorem charListLe_trans :
    ∀ (a b c : List Char), charListLe a b = true → charListLe b c = true →
      charListLe a c = true := by
  intro a
  induction a with
  | nil =>
    intro b c _ _
    rfl
  | cons x xs ih =>
    intro b c hab hbc
    cases b with
    | nil => simp [charListLe] at hab
    | cons y ys =>
      cases c with
      | nil => simp [charListLe] at hbc
      | cons z zs =>
        unfold charListLe at hab hbc ⊢
        by_cases h1 : x.toNat < y.toNat
        · by_cases h2 : y.toNat < z.toNat
          · rw [if_pos (by omega)]
          · by_cases h3 : y.toNat = z.toNat
            · rw [if_pos (by omega)]
            · rw [if_neg h2, if_neg h3] at hbc
              simp at hbc
        · by_cases h1e : x.toNat = y.toNat
          · rw [if_neg h1, if_pos h1e] at hab
            by_cases h2 : y.toNat < z.toNat
            · rw [if_pos (by omega)]
            · by_cases h3 : y.toNat = z.toNat
              · rw [if_neg h2, if_pos h3] at hbc
                rw [if_neg (by omega), if_pos (by omega)]
                exact ih ys zs hab hbc
              · rw [if_neg h2, if_neg h3] at hbc
                simp at hbc
          · rw [if_neg h1, if_neg h1e] at hab
            simp at hab

instance : IsTotal Item pubGe :=
  ⟨fun a b => by
    unfold pubGe strLeB
    rcases charListLe_total b.published_at.toList a.published_at.toList with h | h
    · exact Or.inl h
    · exact Or.inr h⟩

instance : IsTrans Item pubGe :=
  ⟨fun a b c hab hbc => by
    unfold pubGe strLeB at hab hbc ⊢
    exact charListLe_trans _ _ _ hbc hab⟩

/-! ### C2: the `LIKE '%query%'` / substring equivalence -/

theorem likeMatch_percent (ps s : List Char) :
    likeMatch ('%' :: ps) s = s.tails.any (likeMatch ps) := by
  simp [likeMatch]

theorem likeMatch_percent_nil : ∀ (s : List Char), likeMatch ['%'] s = true := by
  intro s
  induction s with
  | nil => rfl
  | cons c s' ih =>
    rw [likeMatch_percent] at ih ⊢
    rw [List.tails_cons, List.any_cons, ih, Bool.or_true]

theorem likeMatch_nowild_append :
    ∀ (q : List Char), (∀ c ∈ q, c ≠ '%' ∧ c ≠ '_') →
      ∀ (rest s : List Char),
        likeMatch (q ++ rest) s
          = ((foldL q).isPrefixOf (foldL s) && likeMatch rest (s.drop q.length)) := by
  intro q
  induction q with
  | nil =>
    intro _ rest s
    simp [foldL, List.isPrefixOf]
  | cons c q' ih =>
    intro hw rest s
    have hc := hw c (List.mem_cons_self c q')
    rw [List.cons_append]
    cases s with
    | nil =>
      simp [likeMatch, hc.1, foldL, List.isPrefixOf]
    | cons c0 s' =>
      have hstep : likeMatch (c :: (q' ++ rest)) (c0 :: s')
          = ((asciiLower c == asciiLower c0) && likeMatch (q' ++ rest) s') := by
        simp [likeMatch, hc.1, hc.2]
      rw [hstep, ih (fun d hd => hw d (List.mem_cons_of_mem c hd)) rest s']
      show _ = (List.isPrefixOf (asciiLower c :: foldL q') (asciiLower c0 :: foldL s')
        && likeMatch rest ((c0 :: s').drop (q'.length + 1)))
      rw [List.drop_succ_cons]
      show _ = (((asciiLower c == asciiLower c0) && List.isPrefixOf (foldL q') (foldL s'))
        && likeMatch rest (s'.drop q'.length))
      rw [Bool.and_assoc]

theorem likeMatch_pattern_eq_contains (q s : List Char)
    (hw : ∀ c ∈ q, c ≠ '%' ∧ c ≠ '_') :
    likeMatch ('%' :: (q ++ ['%'])) s = containsSub (foldL q) (foldL s) := by
  rw [likeMatch_percent]
  have h1 : ∀ t, likeMatch (q ++ ['%']) t = (foldL q).isPrefixOf (foldL t) := by
    intro t
    rw [likeMatch_nowild_append q hw ['%'] t, likeMatch_percent_nil, Bool.and_true]
  have h2 : s.tails.any (likeMatch (q ++ ['%']))
      = s.tails.any fun t => (foldL q).isPrefixOf (foldL t) :=
    congrArg _ (funext h1)
  rw [h2]
  unfold containsSub foldL
  rw [List.map_tails, List.any_map]
  rfl

theorem SourceKind.toText_inj (a b : SourceKind) (h : (a.toText == b.toText) = true) :
    a = b := by
  cases a <;> cases b <;> revert h <;> decide

theorem hasWildcard_false_elim {q : String} (h : hasWildcard q = false) :
    ∀ c ∈ q.toList, c ≠ '%' ∧ c ≠ '_' := by
  intro c hc
  unfold hasWildcard at h
  rw [List.any_eq_false] at h
  have := h c hc
  constructor
  · intro he
    subst he
    simp at this
  · intro he
    subst he
    simp at this

theorem likePattern_eq (q : String) : likePattern q = '%' :: (q.toList ++ ['%']) := rfl

theorem rowMatches_iff (f : ListFilter) (it : Item) :
    rowMatches f it = true ↔ satisfiesFilter f it := by
  unfold rowMatches satisfiesFilter
  rw [Bool.and_eq_true, Bool.and_eq_true, Bool.and_eq_true]
  constructor
  · rintro ⟨⟨⟨hk, hsid⟩, hsince⟩, hq⟩
    refine ⟨?_, ?_, ?_, ?_⟩
    · intro k hk'
      rw [hk'] at hk
      exact SourceKind.toText_inj _ _ hk
    · intro s hs
      rw [hs] at hsid
      exact eq_of_beq hsid
    · intro s hs
      rw [hs] at hsince
      exact hsince
    · intro q hq'
      rw [hq'] at hq
      rw [Bool.or_eq_true] at hq
      constructor
      · rcases hq with h | h
        · left
          cases ht : it.title with
          | none => rw [ht] at h; simp at h
          | some t =>
            rw [ht] at h
            exact ⟨t, rfl, h⟩
        · right
          cases ht : it.summary with
          | none => rw [ht] at h; simp at h
          | some t =>
            rw [ht] at h
            exact ⟨t, rfl, h⟩
      · intro hnw
        have hwq := hasWildcard_false_elim hnw
        rcases hq with h | h
        · left
          cases ht : it.title with
          | none => rw [ht] at h; simp at h
          | some t =>
            rw [ht] at h
            refine ⟨t, rfl, ?_⟩
            rw [← likeMatch_pattern_eq_contains q.toList t.toList hwq]
            exact h
        · right
          cases ht : it.summary with
          | none => rw [ht] at h; simp at h
          | some t =>
            rw [ht] at h
            refine ⟨t, rfl, ?_⟩
            rw [← likeMatch_pattern_eq_contains q.toList t.toList hwq]
            exact h
  · rintro ⟨h1, h2, h3, h4⟩
    refine ⟨⟨⟨?_, ?_⟩, ?_⟩, ?_⟩
    · cases hk : f.source_kind with
      | none => rfl
      | some k =>
        rw [h1 k hk]
        simp
    · cases hs : f.source_id with
      | none => rfl
      | some s =>
        rw [h2 s hs]
        simp
    · cases hs : f.since with
      | none => rfl
      | some s => exact h3 s hs
    · cases hq : f.query with
      | none => rfl
      | some q =>
        obtain ⟨hlike, _⟩ := h4 q hq
        rcases hlike with ⟨t, ht, hm⟩ | ⟨t, ht, hm⟩
        · have hm' : likeMatch (likePattern q) t.data = true := hm
          simp [ht, hm']
        · have hm' : likeMatch (likePattern q) t.data = true := hm
          simp [ht, hm']

/-- C2 counterexample.  With one stored item titled `"Rust"` and the filter
query `"R_st"`, `list_items` returns the item — the SQL `LIKE` treats `_` as
a single-character wildcard — although `R_st` is not a substring of the
item's title (not even up to ASCII case) and the summary is NULL.  So the
returned set is not characterised by substring containment. -/
theorem list_items_substring_counterexample :
    list_items [sampleRust] { query := some "R_st" } = [sampleRust]
    ∧ containsSub "R_st".toList "Rust".toList = false
    ∧ containsSub (foldL "R_st".toList) (foldL "Rust".toList) = false
    ∧ sampleRust.title = some "Rust" ∧ sampleRust.summary = none := by
  decide

/-- C2 amended.  `list_items` returns exactly the stored rows satisfying
every set constraint — kind equality, source-id equality, `published_at >=
since` in string order, and the query clause matching `LIKE '%query%'`
against title OR summary (equivalently, ASCII-case-insensitive substring
containment whenever the query contains no `%`/`_` wildcard; NULL columns
never match) — ordered by `published_at` descending, truncated to the first
`limit` rows after ordering and filtering when a limit is set. -/
theorem list_items_correct (db : List Item) (f : ListFilter) :
    (∀ it, rowMatches f it = true ↔ satisfiesFilter f it)
    ∧ List.Sorted pubGe (list_items db f)
    ∧ (f.limit = none → (list_items db f).Perm (db.filter (rowMatches f)))
    ∧ ∀ n, f.limit = some n →
        (list_items db f).length = min n (db.filter (rowMatches f)).length
        ∧ List.IsPrefix (list_items db f) (sortDesc (db.filter (rowMatches f))) := by
  refine ⟨rowMatches_iff f, ?_, ?_, ?_⟩
  · unfold list_items
    cases hl : f.limit with
    | none => exact List.sorted_insertionSort pubGe _
    | some n =>
      exact List.Pairwise.sublist (List.take_sublist n _) (List.sorted_insertionSort pubGe _)
  · intro hl
    unfold list_items
    rw [hl]
    exact List.perm_insertionSort pubGe _
  · intro n hl
    unfold list_items
    rw [hl]
    constructor
    · rw [List.length_take]
      have hp : (sortDesc (db.filter (rowMatches f))).length
          = (db.filter (rowMatches f)).length :=
        (List.perm_insertionSort pubGe _).length_eq
      rw [hp]
    · exact List.take_prefix n _

/-- C2 amended witness: with two stored items and `limit = 1`, the result
has the promised length and is a prefix of the fully ordered filtered rows. -/
theorem list_items_correct_witness :
    (list_items [sampleItem, sampleLater] { limit := some 1 }).length
      = min 1 (List.filter (rowMatches { limit := some 1 }) [sampleItem, sampleLater]).length
    ∧ List.IsPrefix (list_items [sampleItem, sampleLater] { limit := some 1 })
        (sortDesc (List.filter (rowMatches { limit := some 1 }) [sampleItem, sampleLater])) :=
  (list_items_correct [sampleItem, sampleLater] { limit := some 1 }).2.2.2 1 rfl

end Pai
